import Mathlib

/-!
Verification of the nft_trade matching and settlement subsystems.

The matching core (namespace NftMatch) embeds model/trade_model.go (the
Order/Trade models), dao/redis.go (the Redis ZSet order book) and
service/trade_service.go / service/match.go (MatchEngine, CancelOrder).
The settlement pipeline (namespace NftSettle) embeds the NFTOrder models,
service/trade_service.go (ExecuteTrade) and utils/rabbitmq.go
(ConsumeTradeMsg).

Machine int64 values are modelled as Int (no quantity or price in any
scenario approaches the int64 range, so wrap-around is irrelevant). The
float64 ZSet scores of dao/redis.go, price + ts/1e12, are modelled
exactly: every score and every range bound is stored multiplied by 1e12,
an order- and membership-preserving integer encoding of the same
quantities.
-/

deriving instance DecidableEq for Except

namespace NftMatch

/-- Order side, from model/trade_model.go (OrderType: "buy" / "sell"). -/
inductive OrderType where
  | buy
  | sell
deriving DecidableEq, Repr

/-- Order status, from model/trade_model.go (OrderStatus: pending /
partially / completed / cancelled / failed). -/
inductive OrderStatus where
  | pending
  | partially
  | completed
  | cancelled
  | failed
deriving DecidableEq, Repr

/-- Order ids have the Go format "{millisecond-timestamp}-{uuid tail}"
(utils/idgen.go GenerateOrderId); dao/redis.go AddOrderToBook parses the
timestamp back out of the id, so the id is modelled as the pair of its two
components. -/
structure OrderId where
  ts : Int
  suffix : String
deriving DecidableEq, Repr

/-- Rendering of an OrderId back to its Go string form. -/
def OrderId.str (i : OrderId) : String :=
  toString i.ts ++ "-" ++ i.suffix

/-- model.Order, from model/trade_model.go. The gorm time columns
(CreatedAt/UpdatedAt/DeletedAt) carry wall-clock values never read by the
matching logic and are omitted. -/
structure Order where
  id : OrderId
  nftId : String
  userAddr : String
  price : Int
  quantity : Int
  remainingQty : Int
  type : OrderType
  status : OrderStatus
deriving DecidableEq, Repr

/-- model.Trade, from model/trade_model.go (CreatedAt omitted as above). -/
structure Trade where
  id : OrderId
  buyOrderId : OrderId
  sellOrderId : OrderId
  nftId : String
  tradePrice : Int
  tradeQuantity : Int
  buyerAddr : String
  sellerAddr : String
deriving DecidableEq, Repr

/-- One member of a Redis sorted set: an order id together with its
score. The score is stored multiplied by 1e12 (see the header note), so
the source's float64 score s appears here as the integer s * 1e12. -/
structure ZEntry where
  member : OrderId
  score : Int
deriving DecidableEq, Repr

/-- A Redis sorted set, kept in ascending score order. Entries with equal
scores keep insertion order (no scenario in this development produces a
score tie, so Redis's member-lexicographic tie rule is never exercised). -/
abbrev Book := List ZEntry

/-- Insert an entry at its ascending-score position. -/
def zinsert (e : ZEntry) : Book → Book
  | [] => [e]
  | x :: xs => if e.score < x.score then e :: x :: xs else x :: zinsert e xs

/-- Redis ZADD: replace any existing entry for the member, then insert the
new score at its sorted position. -/
def zadd (b : Book) (e : ZEntry) : Book :=
  zinsert e (b.filter (fun x => x.member ≠ e.member))

/-- Redis ZREM: drop the member (a no-op when absent). -/
def zrem (b : Book) (m : OrderId) : Book :=
  b.filter (fun x => x.member ≠ m)

/-- Redis ZRANGEBYSCORE min max: the members whose score lies in
[min, max], in ascending score order (the book is kept sorted). Bounds
are in the same ×1e12 encoding as the stored scores. -/
def zrangebyscore (b : Book) (lo hi : Int) : List ZEntry :=
  b.filter (fun x => lo ≤ x.score ∧ x.score ≤ hi)

/-- The whole Redis keyspace of order books, as an association list from
book key to sorted set. An absent key reads as the empty set. -/
abbrev Books := List (String × Book)

/-- Read the sorted set stored at a key (empty when the key is absent). -/
def lookupBook (bs : Books) (k : String) : Book :=
  match bs.find? (fun p => p.1 = k) with
  | some p => p.2
  | none => []

/-- Store a sorted set at a key, replacing any previous value. -/
def setBook (bs : Books) (k : String) (b : Book) : Books :=
  bs.filter (fun p => p.1 ≠ k) ++ [(k, b)]

/-- dao/redis.go GetOrderBookKey: "nft:{nftId}:{orderType}" (rendered here
with explicit concatenation). -/
def OrderType.str : OrderType → String
  | .buy => "buy"
  | .sell => "sell"

/-- dao/redis.go GetOrderBookKey. -/
def getOrderBookKey (t : OrderType) (nftId : String) : String :=
  "nft:" ++ nftId ++ ":" ++ t.str

/-- The ZSet score assigned by dao/redis.go AddOrderToBook:
price + ts/1e12, negated for buy orders. In the ×1e12 encoding the score
price + ts/1e12 is the integer price * 1e12 + ts, computed exactly in
place of Go's float64. -/
def orderScore (o : Order) : Int :=
  let base : Int := o.price * 10 ^ 12 + o.id.ts
  if o.type = OrderType.buy then -base else base

/-- dao/redis.go AddOrderToBook: ZADD the order id under its
(nftId, side) book key with its score. -/
def addOrderToBook (o : Order) (bs : Books) : Books :=
  let k := getOrderBookKey o.type o.nftId
  setBook bs k (zadd (lookupBook bs k) { member := o.id, score := orderScore o })

/-- dao/redis.go RemoveOrderFromBook: ZREM the order id from its book. -/
def removeOrderFromBook (o : Order) (bs : Books) : Books :=
  let k := getOrderBookKey o.type o.nftId
  setBook bs k (zrem (lookupBook bs k) o.id)

/-- dao/redis.go GetMatchableOrders: ZRANGEBYSCORE over the sell book of
the buy order's asset, from score 0 up to buyOrder.Price + 1e12 (here in
the ×1e12 encoding: (price + 1e12) * 1e12), returning the member ids in
ascending score order. -/
def getMatchableOrders (buyOrder : Order) (bs : Books) : List OrderId :=
  let sellBookKey := getOrderBookKey OrderType.sell buyOrder.nftId
  let maxScore : Int := (buyOrder.price + 10 ^ 12) * 10 ^ 12
  (zrangebyscore (lookupBook bs sellBookKey) 0 maxScore).map (fun e => e.member)

/-- dao/mysql.go GetOrderById over the order table. -/
def getOrderById (orders : List Order) (i : OrderId) : Option Order :=
  orders.find? (fun o => o.id = i)

/-- dao/mysql.go UpdateOrder (gorm Save by primary key): replace the row
whose id matches. -/
def updateOrder (o : Order) (orders : List Order) : List Order :=
  orders.map (fun x => if x.id = o.id then o else x)

/-- dao/mysql.go CreateTrade: append the trade row. -/
def createTrade (t : Trade) (trades : List Trade) : List Trade :=
  trades ++ [t]

/-- utils/idgen.go GenerateOrderId draws fresh ids from the clock and a
uuid; freshness is modelled by a per-run counter. -/
def generateTradeId (ctr : Nat) : OrderId :=
  { ts := Int.ofNat ctr, suffix := "t" }

/-- Observable actions of a run: distributed-lock acquire and release
(utils RedisLock.Lock / Unlock, keyed by the lock key), the asynchronous
transferAsset dispatch of service/match.go, and the asset unfreeze of
service/trade_service.go CancelOrder. -/
inductive Event where
  | lockEv (key : String)
  | unlockEv (key : String)
  | transferEv (tradeId : OrderId)
  | unfreezeEv (userAddr nftId : String) (qty : Int) (t : OrderType)
deriving DecidableEq, Repr

/-- Whether an event is a lock acquisition. -/
def Event.isLockEv : Event → Bool
  | .lockEv _ => true
  | _ => false

/-- The mutable stores MatchEngine touches: the MySQL order and trade
tables and the Redis order books. -/
structure EngineState where
  orders : List Order
  books : Books
  trades : List Trade
deriving DecidableEq, Repr

/-- The running state of one MatchEngine invocation: the stores, the local
buyOrder pointer and remainingQty variable, the fresh-id counter, the
events emitted so far, and the stack of deferred unlocks (Go defer runs
them only when MatchEngine itself returns, most recent first). -/
structure MatchState where
  st : EngineState
  buyOrder : Order
  remainingQty : Int
  ctr : Nat
  trace : List Event
  defers : List Event
deriving DecidableEq, Repr

/-- Step 5 of service/match.go MatchEngine: the trade quantity starts as
the loop's remainingQty and is lowered to the sell order's remaining
quantity when that is smaller. -/
def tradeQtyOf (r sellRem : Int) : Int :=
  if sellRem < r then sellRem else r

/-- Steps 7.1 / 7.2 of service/match.go MatchEngine: decrement an order's
remaining quantity by the trade quantity and restatus it (0 remaining →
completed, otherwise partially). -/
def settleOrder (o : Order) (tq : Int) : Order :=
  { o with
    remainingQty := o.remainingQty - tq
    status := if o.remainingQty - tq = 0 then OrderStatus.completed else OrderStatus.partially }

/-- One loop iteration of service/match.go MatchEngine for candidate id
sid: load the sell order (a lookup miss is logged and skipped); acquire
the pairwise lock (modelled as a run in which acquisition succeeds) and
defer its release; drop stale candidates from the book; compute the trade
quantity; create the Trade; decrement and restatus both orders, removing a
filled sell from the book; dispatch the asynchronous transfer; refresh the
local remainingQty. -/
def matchStep (ms : MatchState) (sid : OrderId) : MatchState :=
  match getOrderById ms.st.orders sid with
  | none => ms
  | some sellOrder =>
    let lockKey := "lock:order:" ++ ms.buyOrder.id.str ++ ":" ++ sellOrder.id.str
    let ms1 : MatchState :=
      { ms with
        trace := ms.trace ++ [Event.lockEv lockKey]
        defers := Event.unlockEv lockKey :: ms.defers }
    if sellOrder.status ≠ OrderStatus.pending ∧ sellOrder.status ≠ OrderStatus.partially then
      { ms1 with st := { ms1.st with books := removeOrderFromBook sellOrder ms1.st.books } }
    else
      let tradeQty := tradeQtyOf ms1.remainingQty sellOrder.remainingQty
      let trade : Trade :=
        { id := generateTradeId ms1.ctr
          buyOrderId := ms1.buyOrder.id
          sellOrderId := sellOrder.id
          nftId := ms1.buyOrder.nftId
          tradePrice := sellOrder.price
          tradeQuantity := tradeQty
          buyerAddr := ms1.buyOrder.userAddr
          sellerAddr := sellOrder.userAddr }
      let trades1 := createTrade trade ms1.st.trades
      let buy1 : Order := settleOrder ms1.buyOrder tradeQty
      let orders1 := updateOrder buy1 ms1.st.orders
      let sell1 : Order := settleOrder sellOrder tradeQty
      let books1 :=
        if sell1.remainingQty = 0 then removeOrderFromBook sell1 ms1.st.books
        else ms1.st.books
      let orders2 := updateOrder sell1 orders1
      { st := { orders := orders2, books := books1, trades := trades1 }
        buyOrder := buy1
        remainingQty := buy1.remainingQty
        ctr := ms1.ctr + 1
        trace := ms1.trace ++ [Event.transferEv trade.id]
        defers := ms1.defers }

/-- The candidate loop of MatchEngine: stop as soon as remainingQty ≤ 0,
otherwise run one iteration and continue. -/
def matchLoop (ms : MatchState) : List OrderId → MatchState
  | [] => ms
  | sid :: rest =>
    if ms.remainingQty ≤ 0 then ms
    else matchLoop (matchStep ms sid) rest

/-- service/match.go MatchEngine: a non-buy order returns immediately;
a buy order fetches the matchable sell ids, runs the candidate loop, and
finally removes itself from its book when fully filled. Returns the final
stores and the full event trace; the deferred unlocks run (most recent
first) only at this point, when the function returns. -/
def matchEngine (newOrder : Order) (st : EngineState) : EngineState × List Event :=
  if newOrder.type = OrderType.buy then
    let cands := getMatchableOrders newOrder st.books
    let ms0 : MatchState :=
      { st := st
        buyOrder := newOrder
        remainingQty := newOrder.remainingQty
        ctr := 0
        trace := []
        defers := [] }
    let ms := matchLoop ms0 cands
    let st1 :=
      if ms.buyOrder.remainingQty = 0 then
        { ms.st with books := removeOrderFromBook ms.buyOrder ms.st.books }
      else ms.st
    (st1, ms.trace ++ ms.defers)
  else (st, [])

/-- The event trace of one MatchEngine run. -/
def matchEngineTrace (newOrder : Order) (st : EngineState) : List Event :=
  (matchEngine newOrder st).2

/-- From the point a lock on key k was acquired: true when k is released
before any further lock acquisition occurs. -/
def releasedBeforeNextLock (k : String) : List Event → Bool
  | [] => true
  | Event.lockEv _ :: _ => false
  | Event.unlockEv k2 :: rest => if k2 = k then true else releasedBeforeNextLock k rest
  | _ :: rest => releasedBeforeNextLock k rest

/-- A trace keeps its locks iteration-scoped when every acquired lock is
released before the next lock acquisition begins. -/
def locksScoped : List Event → Bool
  | [] => true
  | Event.lockEv k :: rest => releasedBeforeNextLock k rest && locksScoped rest
  | _ :: rest => locksScoped rest

/-- service/trade_service.go CancelOrder. Signature verification is the
external collaborator utils.VerifySignature (its sha256 stub is explicitly
out of scope per the spec), passed in as verify; the order of checks,
the error strings, the state mutations and the lock/unfreeze/unlock events
mirror the Go code (the deferred unlock fires at function exit). -/
def cancelOrder (verify : String → String → String → Bool) (st : EngineState)
    (orderId : OrderId) (userAddr signature : String) :
    Except String Unit × EngineState × List Event :=
  let data := orderId.str ++ userAddr
  if verify userAddr data signature = false then
    (Except.error "signature verify failed", st, [])
  else
    match getOrderById st.orders orderId with
    | none => (Except.error "order not found", st, [])
    | some order =>
      if order.userAddr ≠ userAddr then
        (Except.error "user not owner of order", st, [])
      else if order.status = OrderStatus.completed ∨ order.status = OrderStatus.cancelled then
        (Except.error "order status not allow cancel", st, [])
      else
        let lockKey := "lock:order:" ++ orderId.str
        let order1 : Order := { order with status := OrderStatus.cancelled }
        (Except.ok (),
         { st with
           orders := updateOrder order1 st.orders
           books := removeOrderFromBook order1 st.books },
         [Event.lockEv lockKey,
          Event.unfreezeEv userAddr order.nftId order.remainingQty order.type,
          Event.unlockEv lockKey])

/-- The quantity invariant of the spec: every stored order keeps
0 ≤ remaining_quantity ≤ original quantity. -/
def QtyInv (l : List Order) : Prop :=
  ∀ o ∈ l, 0 ≤ o.remainingQty ∧ o.remainingQty ≤ o.quantity

/-- Rows of the order table are keyed by id: two rows with the same id
coincide. -/
def IdCoherent (l : List Order) : Prop :=
  ∀ o ∈ l, ∀ o' ∈ l, o.id = o'.id → o = o'

/-- How a final order row relates to its initial row: same id, same
original quantity, remaining quantity not increased. -/
def Decr (o' o : Order) : Prop :=
  o'.id = o.id ∧ o'.quantity = o.quantity ∧ o'.remainingQty ≤ o.remainingQty

/-- The loop invariant of one MatchEngine run whose incoming order id is
bid: the order table keeps the quantity invariant and id-keyed coherence,
rows carrying the local buy order's id agree with it, that id is the
incoming id, the local buy order's remaining quantity stays within
[0, quantity], and the loop's remainingQty variable mirrors it. -/
def MSInv (bid : OrderId) (ms : MatchState) : Prop :=
  QtyInv ms.st.orders ∧ IdCoherent ms.st.orders ∧
  (∀ o ∈ ms.st.orders, o.id = ms.buyOrder.id → o = ms.buyOrder) ∧
  ms.buyOrder.id = bid ∧
  0 ≤ ms.buyOrder.remainingQty ∧ ms.buyOrder.remainingQty ≤ ms.buyOrder.quantity ∧
  ms.remainingQty = ms.buyOrder.remainingQty

end NftMatch

namespace NftSettle

/-- model.NFTOrder, from model/trade_model.go. Fields never read by
ExecuteTrade or the claims (timestamps, order type, start/end time) are
omitted; the decimal wei Price string is modelled by its integer value.
Status follows the Go comment: 0 pending, 1 filled, 2 cancelled,
3 expired, 4 processing, 5 failed. -/
structure NOrder where
  orderNo : String
  nftAssetID : Nat
  tokenID : String
  contractAddr : String
  sellerAddr : String
  buyerAddr : String
  price : Int
  chainID : Int
  status : Int
deriving DecidableEq, Repr

/-- model.NFTAsset (the fields ExecuteTrade reads). -/
structure NAsset where
  id : Nat
  tokenID : String
  ownerAddr : String
deriving DecidableEq, Repr

/-- model.NFTAssetLock (the fields ExecuteTrade touches); unlocked models
a non-null UnlockTime. -/
structure NLock where
  nftAssetID : Nat
  orderNo : String
  unlocked : Bool
deriving DecidableEq, Repr

/-- model.NFTTradeRecord (the fields ExecuteTrade writes). -/
structure NRecord where
  tradeNo : String
  orderNo : String
  nftAssetID : Nat
  sellerAddr : String
  buyerAddr : String
  price : Int
  fee : Int
  feeAddr : String
  txHash : String
  chainID : Int
deriving DecidableEq, Repr

/-- One on-chain NFT transfer performed through
contract.ERC721Transactor.SafeTransferFrom. -/
structure ChainTransfer where
  fromAddr : String
  toAddr : String
  tokenID : String
deriving DecidableEq, Repr

/-- The stores ExecuteTrade touches, plus the ledger of on-chain transfers
actually executed and a freshness counter modelling uuid/clock draws. -/
structure SettleState where
  orders : List NOrder
  assets : List NAsset
  locks : List NLock
  records : List NRecord
  transfers : List ChainTransfer
  fresh : Nat
deriving DecidableEq, Repr

/-- The configuration fields ExecuteTrade reads (config InitConfig):
the set of chain ids with a configured RPC url, the platform fee rate
(the exact rational value of the parsed float64), and the fee address. -/
structure PlatformConfig where
  chainIDs : List Int
  feeRate : ℚ
  feeAddr : String
deriving DecidableEq, Repr

/-- Round a rational to the nearest integer, ties to even — the rounding
math/big applies when formatting a decimal at 0 fractional digits. -/
def roundHalfToEven (x : ℚ) : Int :=
  if x - ⌊x⌋ < 1 / 2 then ⌊x⌋
  else if 1 / 2 < x - ⌊x⌋ then ⌊x⌋ + 1
  else if ⌊x⌋ % 2 = 0 then ⌊x⌋ else ⌊x⌋ + 1

/-- The fee computation of ExecuteTrade step 6: parse the price into a
big.Float, multiply by big.NewFloat(feeRate), and format with
Text('f', 0). Modelled as the exact rational product followed by
math/big's nearest/ties-to-even decimal rounding; this coincides with the
Go computation whenever the binary product is exactly representable at the
operating precision (≤ 64 bits), which holds for every instantiation in
this development. -/
def goFeeText (price : Int) (feeRate : ℚ) : Int :=
  roundHalfToEven ((price : ℚ) * feeRate)

/-- service/trade_service.go ExecuteTrade: load the order by order number
(with no status filter), load its asset, look up the chain RPC
configuration, execute the on-chain SafeTransferFrom (modelled as the
success path, appending to the transfer ledger), compute the fee, then in
one transaction set the order status to 1, unlock the asset lock, move the
asset to the buyer, and append a fresh NFTTradeRecord. -/
def executeTrade (cfg : PlatformConfig) (st : SettleState) (orderNo : String) :
    Except String Unit × SettleState :=
  match st.orders.find? (fun o => o.orderNo = orderNo) with
  | none => (Except.error "record not found", st)
  | some order =>
    match st.assets.find? (fun a => a.id = order.nftAssetID) with
    | none => (Except.error "record not found", st)
    | some asset =>
      if order.chainID ∈ cfg.chainIDs then
        let txHash := "0xtx" ++ toString st.fresh
        let transfers1 := st.transfers ++
          [{ fromAddr := order.sellerAddr
             toAddr := order.buyerAddr
             tokenID := order.tokenID }]
        let fee := goFeeText order.price cfg.feeRate
        let orders1 := st.orders.map
          (fun o => if o.orderNo = orderNo then { o with status := 1 } else o)
        let locks1 := st.locks.map
          (fun l => if l.orderNo = orderNo then { l with unlocked := true } else l)
        let assets1 := st.assets.map
          (fun a => if a.id = asset.id then { a with ownerAddr := order.buyerAddr } else a)
        let record : NRecord :=
          { tradeNo := "uuid-" ++ toString (st.fresh + 1)
            orderNo := orderNo
            nftAssetID := order.nftAssetID
            sellerAddr := order.sellerAddr
            buyerAddr := order.buyerAddr
            price := order.price
            fee := fee
            feeAddr := cfg.feeAddr
            txHash := txHash
            chainID := order.chainID }
        (Except.ok (),
         { orders := orders1
           assets := assets1
           locks := locks1
           records := st.records ++ [record]
           transfers := transfers1
           fresh := st.fresh + 2 })
      else (Except.error "chain config missing", st)

/-- A delivered queue message body as seen by utils/rabbitmq.go
ConsumeTradeMsg: either an undecodable JSON body or the decoded string
map. -/
inductive MsgBody where
  | malformed
  | fields (kvs : List (String × String))
deriving DecidableEq, Repr

/-- The acknowledgement ConsumeTradeMsg sends for one delivery:
d.Ack(false), d.Nack(false, false) (discard) or d.Nack(false, true)
(requeue). -/
inductive AckAction where
  | ack
  | nackDiscard
  | nackRequeue
deriving DecidableEq, Repr

/-- Lookup in the decoded message map. -/
def lookupField (kvs : List (String × String)) (k : String) : Option String :=
  (kvs.find? (fun kv => kv.1 = k)).map (fun kv => kv.2)

/-- One message dispatch of ConsumeTradeMsg: an undecodable body or a
missing order_no field is Nack'd without requeue; a handler error is
Nack'd with requeue; otherwise the message is Ack'd. -/
def consumeStep (handler : String → Except String Unit) : MsgBody → AckAction
  | MsgBody.malformed => AckAction.nackDiscard
  | MsgBody.fields kvs =>
    match lookupField kvs "order_no" with
    | none => AckAction.nackDiscard
    | some orderNo =>
      match handler orderNo with
      | Except.error _ => AckAction.nackRequeue
      | Except.ok _ => AckAction.ack

/-- The handler main wires into ConsumeTradeMsg: ExecuteTrade on the
delivered order number against the current stores. -/
def tradeHandler (cfg : PlatformConfig) (st : SettleState) :
    String → Except String Unit :=
  fun orderNo => (executeTrade cfg st orderNo).1

end NftSettle

namespace NftMatch

/-- A verify function modelling utils.VerifySignature accepting the
supplied signature. -/
def sigAlways : String → String → String → Bool :=
  fun _ _ _ => true

/-- Scenario: a resting sell priced far above an incoming buy's limit. -/
def c1sell : Order :=
  { id := { ts := 0, suffix := "s1" }
    nftId := "n1"
    userAddr := "S"
    price := 200
    quantity := 1
    remainingQty := 1
    type := OrderType.sell
    status := OrderStatus.pending }

/-- The incoming buy with limit price 100 for the overpriced-sell scenario. -/
def c1buy : Order :=
  { id := { ts := 7, suffix := "b1" }
    nftId := "n1"
    userAddr := "B"
    price := 100
    quantity := 1
    remainingQty := 1
    type := OrderType.buy
    status := OrderStatus.pending }

/-- The book holding only the overpriced sell. -/
def c1books : Books := addOrderToBook c1sell []

/-- Scenario: an incoming buy that crosses two resting sells, so the
match loop runs two candidate iterations. -/
def c2buy : Order :=
  { id := { ts := 30, suffix := "b2" }
    nftId := "n2"
    userAddr := "B"
    price := 100
    quantity := 5
    remainingQty := 5
    type := OrderType.buy
    status := OrderStatus.pending }

/-- First resting sell of the two-iteration scenario. -/
def c2sell1 : Order :=
  { id := { ts := 1, suffix := "s2a" }
    nftId := "n2"
    userAddr := "S1"
    price := 90
    quantity := 2
    remainingQty := 2
    type := OrderType.sell
    status := OrderStatus.pending }

/-- Second resting sell of the two-iteration scenario. -/
def c2sell2 : Order :=
  { id := { ts := 2, suffix := "s2b" }
    nftId := "n2"
    userAddr := "S2"
    price := 95
    quantity := 2
    remainingQty := 2
    type := OrderType.sell
    status := OrderStatus.pending }

/-- Initial stores for the two-iteration scenario. -/
def c2state : EngineState :=
  { orders := [c2buy, c2sell1, c2sell2]
    books := addOrderToBook c2sell2 (addOrderToBook c2sell1 (addOrderToBook c2buy []))
    trades := [] }

/-- Scenario: an incoming sell whose price is crossed by a resting buy. -/
def c4sell : Order :=
  { id := { ts := 40, suffix := "s4" }
    nftId := "n4"
    userAddr := "S"
    price := 90
    quantity := 1
    remainingQty := 1
    type := OrderType.sell
    status := OrderStatus.pending }

/-- The resting buy (limit 100 ≥ 90) of the incoming-sell scenario. -/
def c4restBuy : Order :=
  { id := { ts := 4, suffix := "b4" }
    nftId := "n4"
    userAddr := "B"
    price := 100
    quantity := 1
    remainingQty := 1
    type := OrderType.buy
    status := OrderStatus.pending }

/-- Initial stores for the incoming-sell scenario: the resting buy is in
the buy book, the incoming sell is already placed in the sell book. -/
def c4state : EngineState :=
  { orders := [c4restBuy, c4sell]
    books := addOrderToBook c4sell (addOrderToBook c4restBuy [])
    trades := [] }

/-- Scenario: buy qty 10 against a single resting sell qty 4 at price 50. -/
def c5buy : Order :=
  { id := { ts := 10, suffix := "b5" }
    nftId := "n5"
    userAddr := "B"
    price := 50
    quantity := 10
    remainingQty := 10
    type := OrderType.buy
    status := OrderStatus.pending }

/-- The resting sell (qty 4, price 50) of the partial-fill scenario. -/
def c5sell : Order :=
  { id := { ts := 5, suffix := "s5" }
    nftId := "n5"
    userAddr := "S"
    price := 50
    quantity := 4
    remainingQty := 4
    type := OrderType.sell
    status := OrderStatus.pending }

/-- Initial stores for the partial-fill scenario. -/
def c5state : EngineState :=
  { orders := [c5buy, c5sell]
    books := addOrderToBook c5sell (addOrderToBook c5buy [])
    trades := [] }

/-- Price-time-priority scenario, sell (price 100, t = 1). -/
def c6sellC : Order :=
  { id := { ts := 1, suffix := "s6c" }
    nftId := "n6"
    userAddr := "SC"
    price := 100
    quantity := 2
    remainingQty := 2
    type := OrderType.sell
    status := OrderStatus.pending }

/-- Price-time-priority scenario, sell (price 90, t = 2). -/
def c6sellB : Order :=
  { id := { ts := 2, suffix := "s6b" }
    nftId := "n6"
    userAddr := "SB"
    price := 90
    quantity := 2
    remainingQty := 2
    type := OrderType.sell
    status := OrderStatus.pending }

/-- Price-time-priority scenario, sell (price 90, t = 0). -/
def c6sellA : Order :=
  { id := { ts := 0, suffix := "s6a" }
    nftId := "n6"
    userAddr := "SA"
    price := 90
    quantity := 2
    remainingQty := 2
    type := OrderType.sell
    status := OrderStatus.pending }

/-- The incoming buy (limit 100, qty 5) of the price-time-priority
scenario. -/
def c6buy : Order :=
  { id := { ts := 9, suffix := "b6" }
    nftId := "n6"
    userAddr := "B"
    price := 100
    quantity := 5
    remainingQty := 5
    type := OrderType.buy
    status := OrderStatus.pending }

/-- Initial stores for the price-time-priority scenario; the sells are
inserted in the order the spec lists them. -/
def c6state : EngineState :=
  { orders := [c6buy, c6sellA, c6sellB, c6sellC]
    books := addOrderToBook c6sellA (addOrderToBook c6sellB (addOrderToBook c6sellC []))
    trades := [] }

/-- Scenario: an order whose status is failed (the fifth, terminal
status). -/
def c7failed : Order :=
  { id := { ts := 70, suffix := "f7" }
    nftId := "n7"
    userAddr := "U"
    price := 60
    quantity := 3
    remainingQty := 3
    type := OrderType.sell
    status := OrderStatus.failed }

/-- Initial stores for the cancellation scenario. -/
def c7state : EngineState :=
  { orders := [c7failed]
    books := addOrderToBook c7failed []
    trades := [] }

end NftMatch

namespace NftSettle

/-- Configuration for the settlement scenarios: one configured chain,
fee rate 1/50 (the default 0.02), fee address F. -/
def c3cfg : PlatformConfig :=
  { chainIDs := [11155111]
    feeRate := 1 / 50
    feeAddr := "F" }

/-- A matched order (status 4, processing) awaiting settlement. -/
def c3order : NOrder :=
  { orderNo := "o1"
    nftAssetID := 1
    tokenID := "tk1"
    contractAddr := "0xc"
    sellerAddr := "S"
    buyerAddr := "B"
    price := 1000
    chainID := 11155111
    status := 4 }

/-- The NFT asset of the settlement scenario, still owned by the seller. -/
def c3asset : NAsset :=
  { id := 1
    tokenID := "tk1"
    ownerAddr := "S" }

/-- The active asset lock created at placement. -/
def c3lock : NLock :=
  { nftAssetID := 1
    orderNo := "o1"
    unlocked := false }

/-- Initial stores for the settlement scenario: no trade record and no
on-chain transfer yet. -/
def c3state : SettleState :=
  { orders := [c3order]
    assets := [c3asset]
    locks := [c3lock]
    records := []
    transfers := []
    fresh := 0 }

/-- Configuration with fee rate 0.03125 = 1/32, a value exactly
representable as a float64, so the big.Float product is exact. -/
def c8cfg : PlatformConfig :=
  { chainIDs := [11155111]
    feeRate := 1 / 32
    feeAddr := "F" }

/-- An order priced 48, so price × fee rate = 1.5 exactly. -/
def c8order : NOrder :=
  { orderNo := "o8"
    nftAssetID := 8
    tokenID := "tk8"
    contractAddr := "0xc"
    sellerAddr := "S"
    buyerAddr := "B"
    price := 48
    chainID := 11155111
    status := 4 }

/-- The asset of the fee scenario. -/
def c8asset : NAsset :=
  { id := 8
    tokenID := "tk8"
    ownerAddr := "S" }

/-- Initial stores for the fee scenario. -/
def c8state : SettleState :=
  { orders := [c8order]
    assets := [c8asset]
    locks := []
    records := []
    transfers := []
    fresh := 0 }

/-- Stores holding no orders at all, so every order number is unknown. -/
def c9state : SettleState :=
  { orders := []
    assets := []
    locks := []
    records := []
    transfers := []
    fresh := 0 }

end NftSettle

namespace NftMatch

/-- Finding a row by id after replacing that id's row yields the
replacement. -/
theorem getOrderById_updateOrder_self :
    ∀ (l : List Order) (i : OrderId) (o o' : Order),
      getOrderById l i = some o → o'.id = o.id →
      getOrderById (updateOrder o' l) i = some o'
  | [], i, o, o', h, _ => by simp [getOrderById] at h
  | x :: xs, i, o, o', h, hid => by
    by_cases hx : x.id = i
    · have hox : x = o := by
        have h2 : getOrderById (x :: xs) i = some x := by
          simp [getOrderById, List.find?_cons, hx]
        rw [h2] at h
        exact Option.some.inj h
      have ho : o.id = i := by rw [← hox]; exact hx
      have hidx : x.id = o'.id := by rw [hid, ← hox]
      simp [getOrderById, updateOrder, List.find?_cons, hidx, hid, ho]
    · have hrec : getOrderById xs i = some o := by
        rw [getOrderById, List.find?_cons_of_neg _ (by simpa using hx)] at h
        exact h
      have hidx : ¬ x.id = o'.id := by
        have h3 : List.find? (fun a => decide (a.id = i)) xs = some o := hrec
        have hp := List.find?_some h3
        have ho : o.id = i := of_decide_eq_true hp
        rw [hid, ho]; exact hx
      have hr := getOrderById_updateOrder_self xs i o o' hrec hid
      simp only [updateOrder, List.map_cons, if_neg hidx]
      rw [getOrderById, List.find?_cons_of_neg _ (by simpa using hx)]
      exact hr

/-- Reading back the key just stored yields the stored sorted set. -/
theorem lookupBook_setBook_self (bs : Books) (k : String) (b : Book) :
    lookupBook (setBook bs k b) k = b := by
  unfold lookupBook setBook
  induction bs with
  | nil => simp
  | cons p ps ih =>
    by_cases hp : p.1 = k
    · simpa [List.filter_cons, hp] using ih
    · simpa [List.filter_cons, hp] using ih

/-- Every entry surviving a ZREM differs from the removed member. -/
theorem zrem_all_ne (b : Book) (i : OrderId) :
    (zrem b i).all (fun e => e.member ≠ i) = true := by
  induction b with
  | nil => rfl
  | cons x xs ih =>
    by_cases hx : x.member = i
    · simp only [zrem, List.filter_cons, hx] at ih ⊢
      simp [ih]
    · simp only [zrem, List.filter_cons] at ih ⊢
      simp [hx, ih]

/-- After removing an order from its book, no entry of that book carries
its id. -/
theorem removeOrderFromBook_clears_id (o : Order) (bs : Books) :
    (lookupBook (removeOrderFromBook o bs) (getOrderBookKey o.type o.nftId)).all
      (fun e => e.member ≠ o.id) = true := by
  unfold removeOrderFromBook
  rw [lookupBook_setBook_self]
  exact zrem_all_ne _ _

/-- Claim C1 (code-bug evaluation): with a lone resting sell priced 200
and an incoming buy limited to 100, GetMatchableOrders returns that
sell's id even though its price exceeds the buy limit, because the score
ceiling is buyOrder.Price + 1e12 instead of the buy price itself. -/
theorem getMatchableOrders_admits_overpriced_sell :
    getMatchableOrders c1buy c1books = [c1sell.id] ∧ c1buy.price < c1sell.price := by
  decide

/-- Claim C2 (code-bug evaluation): a MatchEngine run over two candidates
acquires the second pairwise lock while the first is still held — the
deferred unlocks fire only at function return — so the run's trace is not
iteration-scoped. -/
theorem matchEngine_lock_held_past_iteration :
    locksScoped (matchEngineTrace c2buy c2state) = false ∧
    (matchEngineTrace c2buy c2state).countP Event.isLockEv = 2 := by
  decide

/-- Claim C4 (counterexample): an incoming sell whose limit is crossed by
a resting buy is not matched at all — MatchEngine returns with every
store unchanged and no trade created. -/
theorem matchEngine_ignores_crossed_incoming_sell :
    c4sell.price ≤ c4restBuy.price ∧
    matchEngine c4sell c4state = (c4state, []) := by
  decide

/-- Claim C4 (amended): MatchEngine performs matching only for incoming
buy orders; any order whose side is not buy — incoming sells included —
returns immediately with the stores untouched, no trades and no events. -/
theorem matchEngine_nonbuy_returns_immediately (o : Order) (st : EngineState)
    (h : o.type ≠ OrderType.buy) :
    matchEngine o st = (st, []) := by
  unfold matchEngine
  simp [h]

/-- Witness for the amended C4 claim at the concrete incoming sell. -/
theorem matchEngine_nonbuy_returns_immediately_witness :
    c4sell.type ≠ OrderType.buy ∧ matchEngine c4sell c4state = (c4state, []) :=
  ⟨by decide, matchEngine_nonbuy_returns_immediately c4sell c4state (by decide)⟩

/-- Claim C5: a buy of quantity 10 matched against a single resting sell
of quantity 4 at price 50 produces exactly one trade of quantity
4 = min(10, 4) at price 50; the buy ends partially filled with remaining
6, the sell ends filled with remaining 0 and is removed from the sell
book. -/
theorem matchEngine_partial_fill_postcondition :
    ((matchEngine c5buy c5state).1.trades.map (fun t => (t.tradeQuantity, t.tradePrice))) =
      [(4, 50)] ∧
    (4 : Int) = min c5buy.remainingQty c5sell.remainingQty ∧
    getOrderById (matchEngine c5buy c5state).1.orders c5buy.id =
      some { c5buy with remainingQty := 6, status := OrderStatus.partially } ∧
    getOrderById (matchEngine c5buy c5state).1.orders c5sell.id =
      some { c5sell with remainingQty := 0, status := OrderStatus.completed } ∧
    lookupBook (matchEngine c5buy c5state).1.books (getOrderBookKey OrderType.sell "n5") = [] := by
  decide

/-- Claim C6: with resting sells (100, t=1), (90, t=2), (90, t=0) and an
incoming buy at limit 100 for quantity 5, the candidate sequence is
(90, t=0), (90, t=2), (100, t=1) and the trades are produced in exactly
that order, each at the resting sell's own price. -/
theorem matchEngine_price_time_priority :
    getMatchableOrders c6buy c6state.books = [c6sellA.id, c6sellB.id, c6sellC.id] ∧
    ((matchEngine c6buy c6state).1.trades.map (fun t => (t.sellOrderId, t.tradePrice))) =
      [(c6sellA.id, c6sellA.price), (c6sellB.id, c6sellB.price), (c6sellC.id, c6sellC.price)] := by
  decide

/-- Claim C7 (counterexample): CancelOrder accepts an order whose status
is Failed — a terminal status per the spec — transitioning it to
Cancelled instead of returning an error. -/
theorem cancelOrder_cancels_failed_order :
    c7failed.status = OrderStatus.failed ∧
    (cancelOrder sigAlways c7state c7failed.id "U" "sig").1 = Except.ok () ∧
    getOrderById (cancelOrder sigAlways c7state c7failed.id "U" "sig").2.1.orders c7failed.id =
      some { c7failed with status := OrderStatus.cancelled } := by
  decide

/-- Claim C7 (amended): for an owned order that passes signature
verification, CancelOrder rejects exactly the statuses Completed and
Cancelled, leaving the stores untouched; from Pending, PartiallyFilled or
Failed it succeeds, setting the status to Cancelled and removing the
order's id from its book. -/
theorem cancelOrder_status_gate (verify : String → String → String → Bool)
    (st : EngineState) (orderId : OrderId) (userAddr sig : String) (order : Order)
    (hfind : getOrderById st.orders orderId = some order)
    (hsig : verify userAddr (orderId.str ++ userAddr) sig = true)
    (hown : order.userAddr = userAddr) :
    ((order.status = OrderStatus.completed ∨ order.status = OrderStatus.cancelled) →
      cancelOrder verify st orderId userAddr sig =
        (Except.error "order status not allow cancel", st, [])) ∧
    ((order.status = OrderStatus.pending ∨ order.status = OrderStatus.partially ∨
        order.status = OrderStatus.failed) →
      (cancelOrder verify st orderId userAddr sig).1 = Except.ok () ∧
      getOrderById (cancelOrder verify st orderId userAddr sig).2.1.orders orderId =
        some { order with status := OrderStatus.cancelled } ∧
      (lookupBook (cancelOrder verify st orderId userAddr sig).2.1.books
          (getOrderBookKey order.type order.nftId)).all
        (fun e => e.member ≠ orderId) = true) := by
  have h' : List.find? (fun a => decide (a.id = orderId)) st.orders = some order := hfind
  have hp := List.find?_some h'
  have hid : order.id = orderId := of_decide_eq_true hp
  constructor
  · intro hstat
    rcases hstat with h | h <;>
      simp [cancelOrder, hsig, hfind, hown, h]
  · intro hstat
    have hnot : ¬ (order.status = OrderStatus.completed ∨ order.status = OrderStatus.cancelled) := by
      rcases hstat with h | h | h <;> rw [h] <;> rintro (h2 | h2) <;> exact OrderStatus.noConfusion h2
    have hred : cancelOrder verify st orderId userAddr sig =
        (Except.ok (),
         { st with
           orders := updateOrder { order with status := OrderStatus.cancelled } st.orders
           books := removeOrderFromBook { order with status := OrderStatus.cancelled } st.books },
         [Event.lockEv ("lock:order:" ++ orderId.str),
          Event.unfreezeEv userAddr order.nftId order.remainingQty order.type,
          Event.unlockEv ("lock:order:" ++ orderId.str)]) := by
      simp [cancelOrder, hsig, hfind, hown, hnot]
    rw [hred]
    refine ⟨rfl, ?_, ?_⟩
    · exact getOrderById_updateOrder_self st.orders orderId order _ hfind rfl
    · have h3 := removeOrderFromBook_clears_id { order with status := OrderStatus.cancelled } st.books
      simpa [hid] using h3

/-- Witness for the amended C7 claim at the concrete failed order. -/
theorem cancelOrder_status_gate_witness :
    getOrderById c7state.orders c7failed.id = some c7failed ∧
    ((c7failed.status = OrderStatus.pending ∨ c7failed.status = OrderStatus.partially ∨
        c7failed.status = OrderStatus.failed) →
      (cancelOrder sigAlways c7state c7failed.id "U" "sig").1 = Except.ok () ∧
      getOrderById (cancelOrder sigAlways c7state c7failed.id "U" "sig").2.1.orders c7failed.id =
        some { c7failed with status := OrderStatus.cancelled } ∧
      (lookupBook (cancelOrder sigAlways c7state c7failed.id "U" "sig").2.1.books
          (getOrderBookKey c7failed.type c7failed.nftId)).all
        (fun e => e.member ≠ c7failed.id) = true) :=
  ⟨by decide,
   (cancelOrder_status_gate sigAlways c7state c7failed.id "U" "sig" c7failed
      (by decide) (by decide) (by decide)).2⟩

end NftMatch

namespace NftSettle

/-- Claim C3 (code-bug evaluation): ExecuteTrade on order o1 succeeds and
marks it settled (status 1), yet redelivering the same settlement
message — running ExecuteTrade on the same order number again — succeeds
again, performs a second on-chain transfer and appends a second trade
record, because the order's current state is never checked. -/
theorem executeTrade_redelivery_double_settles :
    (executeTrade c3cfg c3state "o1").1 = Except.ok () ∧
    ((executeTrade c3cfg c3state "o1").2.orders.map (fun o => o.status)) = [1] ∧
    (executeTrade c3cfg c3state "o1").2.transfers.length = 1 ∧
    (executeTrade c3cfg c3state "o1").2.records.length = 1 ∧
    (executeTrade c3cfg (executeTrade c3cfg c3state "o1").2 "o1").1 = Except.ok () ∧
    (executeTrade c3cfg (executeTrade c3cfg c3state "o1").2 "o1").2.transfers.length = 2 ∧
    (executeTrade c3cfg (executeTrade c3cfg c3state "o1").2 "o1").2.records.length = 2 := by
  decide

/-- Claim C8 (counterexample): with fee rate 0.03125 (exactly
representable in float64) and price 48, the exact product is 1.5; the fee
ExecuteTrade records is 2 — the Text('f', 0) formatting rounds to
nearest — while floor(price × fee rate) is 1. -/
theorem executeTrade_fee_rounds_not_floors :
    ((executeTrade c8cfg c8state "o8").2.records.map (fun r => r.fee)) =
      [goFeeText 48 (1 / 32)] ∧
    goFeeText 48 (1 / 32) = 2 ∧
    ⌊((48 : ℤ) : ℚ) * (1 / 32)⌋ = 1 := by
  have hx : ((48 : ℤ) : ℚ) * (1 / 32) = 3 / 2 := by norm_num
  have hfl : ⌊(3 / 2 : ℚ)⌋ = 1 := by
    rw [Int.floor_eq_iff]
    constructor <;> norm_num
  refine ⟨rfl, ?_, ?_⟩
  · unfold goFeeText
    rw [hx]
    unfold roundHalfToEven
    rw [hfl]
    norm_num
  · rw [hx]
    exact hfl

/-- Claim C8 (amended): the fee ExecuteTrade records is price × fee rate
rounded to the nearest integer (ties to even) rather than floored: it
always lies within 1/2 of the exact product, and within one unit above
the floor the claim prescribes. -/
theorem goFeeText_nearest_of_product (p : Int) (r : ℚ) :
    (⌊(p : ℚ) * r⌋ ≤ goFeeText p r ∧ goFeeText p r ≤ ⌊(p : ℚ) * r⌋ + 1) ∧
    |((goFeeText p r : ℤ) : ℚ) - (p : ℚ) * r| ≤ 1 / 2 := by
  have h0 : ((⌊(p : ℚ) * r⌋ : ℤ) : ℚ) ≤ (p : ℚ) * r := Int.floor_le _
  have h1 : (p : ℚ) * r < ((⌊(p : ℚ) * r⌋ : ℤ) : ℚ) + 1 := Int.lt_floor_add_one _
  unfold goFeeText roundHalfToEven
  by_cases hlt : (p : ℚ) * r - ⌊(p : ℚ) * r⌋ < 1 / 2
  · rw [if_pos hlt]
    refine ⟨⟨le_refl _, by omega⟩, ?_⟩
    rw [abs_le]
    constructor <;> linarith
  · rw [if_neg hlt]
    by_cases hgt : 1 / 2 < (p : ℚ) * r - ⌊(p : ℚ) * r⌋
    · rw [if_pos hgt]
      refine ⟨⟨by omega, le_refl _⟩, ?_⟩
      rw [abs_le]
      push_cast
      constructor <;> linarith
    · rw [if_neg hgt]
      have heq : (p : ℚ) * r - ⌊(p : ℚ) * r⌋ = 1 / 2 :=
        le_antisymm (not_lt.1 hgt) (not_lt.1 hlt)
      by_cases h2 : ⌊(p : ℚ) * r⌋ % 2 = 0
      · rw [if_pos h2]
        refine ⟨⟨le_refl _, by omega⟩, ?_⟩
        rw [abs_le]
        constructor <;> linarith
      · rw [if_neg h2]
        refine ⟨⟨by omega, le_refl _⟩, ?_⟩
        rw [abs_le]
        push_cast
        constructor <;> linarith

/-- Claim C9 (counterexample): a well-formed settlement message naming an
order number unknown to the store is negative-acknowledged WITH requeue —
the handler's error is treated like any transient failure — where the
claim requires unknown orders to be discarded. -/
theorem consumeStep_unknown_order_requeued :
    c9state.orders.find? (fun o => o.orderNo = "ghost") = none ∧
    consumeStep (tradeHandler c3cfg c9state) (MsgBody.fields [("order_no", "ghost")]) =
      AckAction.nackRequeue ∧
    AckAction.nackRequeue ≠ AckAction.nackDiscard := by
  decide

/-- Claim C9 (amended): the consumer acknowledges by failure class as
follows — an undecodable body or a missing order_no field is discarded
(negative-acknowledged without requeue); every handler failure, the
unknown-order case included, is negative-acknowledged with requeue; a
successfully handled message is acknowledged. -/
theorem consumeStep_ack_classes (handler : String → Except String Unit)
    (kvs : List (String × String)) (orderNo e : String) :
    consumeStep handler MsgBody.malformed = AckAction.nackDiscard ∧
    (lookupField kvs "order_no" = none →
      consumeStep handler (MsgBody.fields kvs) = AckAction.nackDiscard) ∧
    (lookupField kvs "order_no" = some orderNo → handler orderNo = Except.error e →
      consumeStep handler (MsgBody.fields kvs) = AckAction.nackRequeue) ∧
    (lookupField kvs "order_no" = some orderNo → handler orderNo = Except.ok () →
      consumeStep handler (MsgBody.fields kvs) = AckAction.ack) := by
  refine ⟨rfl, ?_, ?_, ?_⟩
  · intro h1
    simp [consumeStep, h1]
  · intro h1 h2
    simp [consumeStep, h1, h2]
  · intro h1 h2
    simp [consumeStep, h1, h2]

/-- Witness for the amended C9 claim: the unknown-order message over the
empty store is requeued. -/
theorem consumeStep_ack_classes_witness :
    lookupField [("order_no", "ghost")] "order_no" = some "ghost" ∧
    tradeHandler c3cfg c9state "ghost" = Except.error "record not found" ∧
    consumeStep (tradeHandler c3cfg c9state) (MsgBody.fields [("order_no", "ghost")]) =
      AckAction.nackRequeue :=
  ⟨by decide, by decide,
   (consumeStep_ack_classes (tradeHandler c3cfg c9state) [("order_no", "ghost")] "ghost"
      "record not found").2.2.1 (by decide) (by decide)⟩

end NftSettle

namespace NftMatch

/-- Decr relates every order to itself. -/
theorem decr_refl (o : Order) : Decr o o :=
  ⟨rfl, rfl, le_refl _⟩

/-- Decr holds pointwise between a list and itself. -/
theorem forall₂_decr_refl : ∀ l : List Order, List.Forall₂ Decr l l
  | [] => List.Forall₂.nil
  | x :: xs => List.Forall₂.cons (decr_refl x) (forall₂_decr_refl xs)

/-- Pointwise Decr composes transitively. -/
theorem forall₂_decr_trans {l₂ l₁ l₀ : List Order}
    (h21 : List.Forall₂ Decr l₂ l₁) (h10 : List.Forall₂ Decr l₁ l₀) :
    List.Forall₂ Decr l₂ l₀ := by
  induction h21 generalizing l₀ with
  | nil =>
    cases h10
    exact List.Forall₂.nil
  | cons hab h ih =>
    cases h10 with
    | cons hbc h' =>
      exact List.Forall₂.cons
        ⟨hab.1.trans hbc.1, hab.2.1.trans hbc.2.1, le_trans hab.2.2 hbc.2.2⟩ (ih h')

/-- A pointwise-dominated map yields Forall₂ Decr against the original. -/
theorem forall₂_decr_map (f : Order → Order) :
    ∀ l : List Order, (∀ x ∈ l, Decr (f x) x) → List.Forall₂ Decr (l.map f) l
  | [], _ => List.Forall₂.nil
  | x :: xs, h =>
    List.Forall₂.cons (h x (List.mem_cons_self x xs))
      (forall₂_decr_map f xs (fun y hy => h y (List.mem_cons_of_mem x hy)))

/-- Updating one row by a value that satisfies the quantity bounds
preserves the quantity invariant. -/
theorem qtyInv_updateOrder {l : List Order} (hl : QtyInv l) {v : Order}
    (hv : 0 ≤ v.remainingQty ∧ v.remainingQty ≤ v.quantity) :
    QtyInv (updateOrder v l) := by
  intro o ho
  rcases List.mem_map.1 ho with ⟨a, ha, rfl⟩
  by_cases h : a.id = v.id
  · rw [if_pos h]
    exact hv
  · rw [if_neg h]
    exact hl a ha

/-- Updating one row preserves id-keyed coherence. -/
theorem idCoherent_updateOrder {l : List Order} (hl : IdCoherent l) (v : Order) :
    IdCoherent (updateOrder v l) := by
  intro o ho o' ho' hid
  rcases List.mem_map.1 ho with ⟨a, ha, rfl⟩
  rcases List.mem_map.1 ho' with ⟨b, hb, rfl⟩
  by_cases hav : a.id = v.id <;> by_cases hbv : b.id = v.id
  · rw [if_pos hav, if_pos hbv]
  · rw [if_pos hav] at hid ⊢
    rw [if_neg hbv] at hid ⊢
    exact absurd hid.symm hbv
  · rw [if_neg hav] at hid ⊢
    rw [if_pos hbv] at hid ⊢
    exact absurd hid hav
  · rw [if_neg hav] at hid ⊢
    rw [if_neg hbv] at hid ⊢
    exact hl a ha b hb hid

/-- The trade quantity never exceeds the loop's remaining quantity. -/
theorem tradeQtyOf_le_left (r s : Int) : tradeQtyOf r s ≤ r := by
  unfold tradeQtyOf
  split <;> omega

/-- The trade quantity never exceeds the sell order's remaining quantity. -/
theorem tradeQtyOf_le_right (r s : Int) : tradeQtyOf r s ≤ s := by
  unfold tradeQtyOf
  split <;> omega

/-- The trade quantity is nonnegative when both inputs are. -/
theorem tradeQtyOf_nonneg {r s : Int} (hr : 0 ≤ r) (hs : 0 ≤ s) : 0 ≤ tradeQtyOf r s := by
  unfold tradeQtyOf
  split <;> omega

/-- Settling keeps the order's id. -/
theorem settleOrder_id (o : Order) (tq : Int) : (settleOrder o tq).id = o.id := rfl

/-- Settling keeps the order's original quantity. -/
theorem settleOrder_quantity (o : Order) (tq : Int) :
    (settleOrder o tq).quantity = o.quantity := rfl

/-- Settling decrements the remaining quantity by the trade quantity. -/
theorem settleOrder_remainingQty (o : Order) (tq : Int) :
    (settleOrder o tq).remainingQty = o.remainingQty - tq := rfl

/-- In the trade-executing branch, the three claim-relevant projections of
one matchStep: the two row updates, the new local buy order, and the
refreshed remainingQty. -/
theorem matchStep_valid_projections (ms : MatchState) (sid : OrderId) (sellOrder : Order)
    (hfind : getOrderById ms.st.orders sid = some sellOrder)
    (hstat : ¬(sellOrder.status ≠ OrderStatus.pending ∧ sellOrder.status ≠ OrderStatus.partially)) :
    (matchStep ms sid).st.orders =
      updateOrder (settleOrder sellOrder (tradeQtyOf ms.remainingQty sellOrder.remainingQty))
        (updateOrder (settleOrder ms.buyOrder (tradeQtyOf ms.remainingQty sellOrder.remainingQty))
          ms.st.orders) ∧
    (matchStep ms sid).buyOrder =
      settleOrder ms.buyOrder (tradeQtyOf ms.remainingQty sellOrder.remainingQty) ∧
    (matchStep ms sid).remainingQty =
      (settleOrder ms.buyOrder (tradeQtyOf ms.remainingQty sellOrder.remainingQty)).remainingQty := by
  refine ⟨?_, ?_, ?_⟩ <;> simp only [matchStep, hfind, if_neg hstat]

/-- In the two skip branches (missing row, stale status), matchStep leaves
the order table, the local buy order and the remainingQty unchanged. -/
theorem matchStep_skip_projections (ms : MatchState) (sid : OrderId) :
    (getOrderById ms.st.orders sid = none ∨
      ∃ sellOrder, getOrderById ms.st.orders sid = some sellOrder ∧
        (sellOrder.status ≠ OrderStatus.pending ∧ sellOrder.status ≠ OrderStatus.partially)) →
    (matchStep ms sid).st.orders = ms.st.orders ∧
    (matchStep ms sid).buyOrder = ms.buyOrder ∧
    (matchStep ms sid).remainingQty = ms.remainingQty := by
  rintro (hnone | ⟨sellOrder, hfind, hstat⟩)
  · refine ⟨?_, ?_, ?_⟩ <;> simp only [matchStep, hnone]
  · refine ⟨?_, ?_, ?_⟩ <;> simp only [matchStep, hfind, if_pos hstat]

/-- One matchStep iteration preserves the loop invariant and only ever
shrinks remaining quantities in the order table. -/
theorem matchStep_inv (bid : OrderId) (ms : MatchState) (sid : OrderId)
    (hms : MSInv bid ms) (hsid : sid ≠ bid) :
    MSInv bid (matchStep ms sid) ∧
    List.Forall₂ Decr (matchStep ms sid).st.orders ms.st.orders := by
  obtain ⟨hq, hco, hbc, hbid, h0, h1, hsync⟩ := hms
  cases hfind : getOrderById ms.st.orders sid with
  | none =>
    obtain ⟨ho, hb, hr⟩ := matchStep_skip_projections ms sid (Or.inl hfind)
    refine ⟨?_, ?_⟩
    · unfold MSInv
      rw [ho, hb, hr]
      exact ⟨hq, hco, hbc, hbid, h0, h1, hsync⟩
    · rw [ho]
      exact forall₂_decr_refl _
  | some sellOrder =>
    by_cases hstat : sellOrder.status ≠ OrderStatus.pending ∧ sellOrder.status ≠ OrderStatus.partially
    · obtain ⟨ho, hb, hr⟩ := matchStep_skip_projections ms sid (Or.inr ⟨sellOrder, hfind, hstat⟩)
      refine ⟨?_, ?_⟩
      · unfold MSInv
        rw [ho, hb, hr]
        exact ⟨hq, hco, hbc, hbid, h0, h1, hsync⟩
      · rw [ho]
        exact forall₂_decr_refl _
    · obtain ⟨ho, hb, hr⟩ := matchStep_valid_projections ms sid sellOrder hfind hstat
      have h' : List.find? (fun a => decide (a.id = sid)) ms.st.orders = some sellOrder := hfind
      have hmem : sellOrder ∈ ms.st.orders := List.mem_of_find?_eq_some h'
      have hp := List.find?_some h'
      have hsellid : sellOrder.id = sid := of_decide_eq_true hp
      obtain ⟨hs0, hs1⟩ := hq sellOrder hmem
      have hsbne : sellOrder.id ≠ ms.buyOrder.id := by
        rw [hsellid, hbid]
        exact hsid
      have hr0 : 0 ≤ ms.remainingQty := by
        rw [hsync]
        exact h0
      have htq0 : 0 ≤ tradeQtyOf ms.remainingQty sellOrder.remainingQty :=
        tradeQtyOf_nonneg hr0 hs0
      have htqr : tradeQtyOf ms.remainingQty sellOrder.remainingQty ≤ ms.remainingQty :=
        tradeQtyOf_le_left _ _
      have htqs : tradeQtyOf ms.remainingQty sellOrder.remainingQty ≤ sellOrder.remainingQty :=
        tradeQtyOf_le_right _ _
      have hbuyBounds :
          0 ≤ (settleOrder ms.buyOrder (tradeQtyOf ms.remainingQty sellOrder.remainingQty)).remainingQty ∧
          (settleOrder ms.buyOrder (tradeQtyOf ms.remainingQty sellOrder.remainingQty)).remainingQty ≤
            (settleOrder ms.buyOrder (tradeQtyOf ms.remainingQty sellOrder.remainingQty)).quantity := by
        rw [settleOrder_remainingQty, settleOrder_quantity]
        omega
      have hsellBounds :
          0 ≤ (settleOrder sellOrder (tradeQtyOf ms.remainingQty sellOrder.remainingQty)).remainingQty ∧
          (settleOrder sellOrder (tradeQtyOf ms.remainingQty sellOrder.remainingQty)).remainingQty ≤
            (settleOrder sellOrder (tradeQtyOf ms.remainingQty sellOrder.remainingQty)).quantity := by
        rw [settleOrder_remainingQty, settleOrder_quantity]
        omega
      have hBSne :
          ¬ (settleOrder ms.buyOrder (tradeQtyOf ms.remainingQty sellOrder.remainingQty)).id =
            (settleOrder sellOrder (tradeQtyOf ms.remainingQty sellOrder.remainingQty)).id := by
        rw [settleOrder_id, settleOrder_id]
        intro hcon
        exact hsbne hcon.symm
      refine ⟨⟨?_, ?_, ?_, ?_, ?_, ?_, ?_⟩, ?_⟩
      · rw [ho]
        exact qtyInv_updateOrder (qtyInv_updateOrder hq hbuyBounds) hsellBounds
      · rw [ho]
        exact idCoherent_updateOrder (idCoherent_updateOrder hco _) _
      · rw [ho, hb]
        intro o hoin hid2
        rcases List.mem_map.1 hoin with ⟨a1, ha1, rfl⟩
        rcases List.mem_map.1 ha1 with ⟨a, ha, rfl⟩
        by_cases hab : a.id = (settleOrder ms.buyOrder (tradeQtyOf ms.remainingQty sellOrder.remainingQty)).id
        · rw [if_pos hab] at hid2 ⊢
          rw [if_neg hBSne] at hid2 ⊢
        · rw [if_neg hab] at hid2 ⊢
          by_cases has : a.id = (settleOrder sellOrder (tradeQtyOf ms.remainingQty sellOrder.remainingQty)).id
          · rw [if_pos has] at hid2 ⊢
            exact absurd hid2 (fun hcon => hBSne hcon.symm)
          · rw [if_neg has] at hid2 ⊢
            exact absurd hid2 hab
      · rw [hb, settleOrder_id]
        exact hbid
      · rw [hb]
        exact hbuyBounds.1
      · rw [hb]
        exact hbuyBounds.2
      · rw [hr, hb]
      · rw [ho]
        have hcomp : updateOrder (settleOrder sellOrder (tradeQtyOf ms.remainingQty sellOrder.remainingQty))
            (updateOrder (settleOrder ms.buyOrder (tradeQtyOf ms.remainingQty sellOrder.remainingQty))
              ms.st.orders) =
            ms.st.orders.map (fun a =>
              (fun x => if x.id = (settleOrder sellOrder (tradeQtyOf ms.remainingQty sellOrder.remainingQty)).id
                then settleOrder sellOrder (tradeQtyOf ms.remainingQty sellOrder.remainingQty) else x)
              ((fun x => if x.id = (settleOrder ms.buyOrder (tradeQtyOf ms.remainingQty sellOrder.remainingQty)).id
                then settleOrder ms.buyOrder (tradeQtyOf ms.remainingQty sellOrder.remainingQty) else x) a)) := by
          unfold updateOrder
          rw [List.map_map]
          rfl
        rw [hcomp]
        apply forall₂_decr_map
        intro a ha
        simp only []
        by_cases hab : a.id = (settleOrder ms.buyOrder (tradeQtyOf ms.remainingQty sellOrder.remainingQty)).id
        · have haB : a = ms.buyOrder := hbc a ha (by rw [hab, settleOrder_id])
          rw [if_pos hab, if_neg hBSne, haB]
          refine ⟨settleOrder_id _ _, settleOrder_quantity _ _, ?_⟩
          rw [settleOrder_remainingQty]
          omega
        · rw [if_neg hab]
          by_cases has : a.id = (settleOrder sellOrder (tradeQtyOf ms.remainingQty sellOrder.remainingQty)).id
          · have haS : a = sellOrder := hco a ha sellOrder hmem (by rw [has, settleOrder_id])
            rw [if_pos has, haS]
            refine ⟨settleOrder_id _ _, settleOrder_quantity _ _, ?_⟩
            rw [settleOrder_remainingQty]
            omega
          · rw [if_neg has]
            exact decr_refl a

/-- The whole candidate loop preserves the loop invariant and only ever
shrinks remaining quantities in the order table. -/
theorem matchLoop_inv (bid : OrderId) :
    ∀ (cs : List OrderId) (ms : MatchState), MSInv bid ms → (∀ c ∈ cs, c ≠ bid) →
      MSInv bid (matchLoop ms cs) ∧
      List.Forall₂ Decr (matchLoop ms cs).st.orders ms.st.orders
  | [], ms, hms, _ => ⟨hms, forall₂_decr_refl _⟩
  | c :: cs, ms, hms, hcs => by
    simp only [matchLoop]
    by_cases hstop : ms.remainingQty ≤ 0
    · rw [if_pos hstop]
      exact ⟨hms, forall₂_decr_refl _⟩
    · rw [if_neg hstop]
      have hstep := matchStep_inv bid ms c hms (hcs c (List.mem_cons_self c cs))
      have hrec := matchLoop_inv bid cs (matchStep ms c) hstep.1
        (fun x hx => hcs x (List.mem_cons_of_mem c hx))
      exact ⟨hrec.1, forall₂_decr_trans hrec.2 hstep.2⟩

/-- Claim C10: a MatchEngine run over an order table satisfying
0 ≤ remaining ≤ quantity (with id-keyed rows, the incoming order's row
agreeing with it, and the incoming order fresh with remaining within its
own bounds) leaves every row satisfying 0 ≤ remaining ≤ quantity, with
each row's original quantity unchanged and its remaining quantity not
increased — so remaining quantities are non-increasing, never negative,
and never exceed the original quantity. -/
theorem matchEngine_remaining_invariant (newOrder : Order) (st : EngineState)
    (hq : QtyInv st.orders) (hco : IdCoherent st.orders)
    (hbc : ∀ o ∈ st.orders, o.id = newOrder.id → o = newOrder)
    (h0 : 0 ≤ newOrder.remainingQty) (h1 : newOrder.remainingQty ≤ newOrder.quantity)
    (hcand : newOrder.id ∉ getMatchableOrders newOrder st.books) :
    QtyInv (matchEngine newOrder st).1.orders ∧
    List.Forall₂ Decr (matchEngine newOrder st).1.orders st.orders := by
  by_cases hbuy : newOrder.type = OrderType.buy
  · have hms0 : MSInv newOrder.id
        { st := st
          buyOrder := newOrder
          remainingQty := newOrder.remainingQty
          ctr := 0
          trace := []
          defers := [] } := ⟨hq, hco, hbc, rfl, h0, h1, rfl⟩
    have hloop := matchLoop_inv newOrder.id (getMatchableOrders newOrder st.books)
      { st := st
        buyOrder := newOrder
        remainingQty := newOrder.remainingQty
        ctr := 0
        trace := []
        defers := [] } hms0
      (fun c hc hcon => hcand (hcon ▸ hc))
    have heq : (matchEngine newOrder st).1.orders =
        (matchLoop
          { st := st
            buyOrder := newOrder
            remainingQty := newOrder.remainingQty
            ctr := 0
            trace := []
            defers := [] } (getMatchableOrders newOrder st.books)).st.orders := by
      simp only [matchEngine, if_pos hbuy]
      split <;> rfl
    rw [heq]
    exact ⟨hloop.1.1, hloop.2⟩
  · have hne : matchEngine newOrder st = (st, []) := by
      unfold matchEngine
      simp [hbuy]
    rw [hne]
    exact ⟨hq, forall₂_decr_refl _⟩

/-- Witness for C10 at the concrete partial-fill scenario. -/
theorem matchEngine_remaining_invariant_witness :
    QtyInv c5state.orders ∧ (0 : Int) ≤ c5buy.remainingQty ∧
    (QtyInv (matchEngine c5buy c5state).1.orders ∧
      List.Forall₂ Decr (matchEngine c5buy c5state).1.orders c5state.orders) :=
  ⟨by unfold QtyInv; decide, by decide,
   matchEngine_remaining_invariant c5buy c5state (by unfold QtyInv; decide)
     (by unfold IdCoherent; decide) (by decide) (by decide) (by decide) (by decide)⟩

end NftMatch
